import Mathlib

/-!
# The relying-party handlers of `examples/rp/server.go`

A shallow embedding of the four HTTP handlers of the example relying party
(`handleHome`, `handleLogin`, `handleCodeExchange`, `handleEntityConfiguration`)
together with the package-level variables they share (`stateDB`, `redirectURI`,
`authBuilder`, `_fedLeaf`).

Everything the handlers obtain from other packages (the federation leaf, the
entity collector, `jws.ParseString`, `json.Unmarshal`, the random string source)
is a field of `Env`: an oracle whose answers the theorems quantify over.  The
calls made on the federation leaf are recorded, in order, in the handler's
result, so that "is called exactly once" and "is never called" are statements
about that list.
-/

namespace RP

/-! ## Go maps -/

/-- A Go `map[string]V` as an association list; a key is read at its first entry. -/
abbrev GoMap (V : Type) := List (String × V)

/-- The read `v, found := m[k]`. -/
def mapGet {V : Type} : GoMap V → String → Option V
  | [], _ => none
  | (k', v) :: rest, k => if k' = k then some v else mapGet rest k

/-- The write `m[k] = v`. -/
def mapSet {V : Type} : GoMap V → String → V → GoMap V
  | [], k, v => [(k, v)]
  | (k', v') :: rest, k, v => if k' = k then (k, v) :: rest else (k', v') :: mapSet rest k v

/-- The builtin `delete(m, k)`. -/
def mapDelete {V : Type} : GoMap V → String → GoMap V
  | [], _ => []
  | (k', v) :: rest, k => if k' = k then mapDelete rest k else (k', v) :: mapDelete rest k

/-- The keys of a map, in the order of the association list. -/
def mapKeys {V : Type} (m : GoMap V) : List String :=
  m.map Prod.fst

/-! ## `net/url` values -/

/-- The type `url.Values`, a `map[string][]string`. -/
abbrev Values := GoMap (List String)

/-- The method `url.Values.Get`: the first value of the key, or the empty string. -/
def Values.Get (v : Values) (key : String) : String :=
  match mapGet v key with
  | some (x :: _) => x
  | _ => ""

/-- The method `url.Values.Set`: the key now holds exactly the one value. -/
def Values.Set (v : Values) (key value : String) : Values :=
  mapSet v key [value]

/-! ## Page templates -/

/-- The call `fmt.Sprintf(loginHtml, clientName, img, options)` on three strings. -/
def loginHtml (clientName img options : String) : String :=
  "<!DOCTYPE html>\n<html>\n<head>\n" ++
  "<link rel=\"stylesheet\" href=\"https://cdn.simplecss.org/simple.min.css\">\n" ++
  "</head>\n<body>\n<h1>Dummy oidfed RP</h1>\n<h2>" ++ clientName ++ "</h2>\n" ++
  img ++ "\n<h4>Choose an OP from the supported federations to login</h4>\n" ++
  "<form action=\"login\">\n  <select name=\"op\" id=\"op\">\n" ++
  "\t<option value=\"/\" selected disabled>Choose OP...</option>\n\t" ++ options ++
  "\n  </select>\n  <input type=\"submit\" value=\"Login\">\n</form>\n</body>\n</html>"

/-- The call `fmt.Sprintf(userHtml, sub, iss)` once both operands are rendered. -/
def userHtml (sub iss : String) : String :=
  "<!DOCTYPE html>\n<html>\n<head>\n" ++
  "<link rel=\"stylesheet\" href=\"https://cdn.simplecss.org/simple.min.css\">\n" ++
  "</head>\n<body>\n<h3>Hello " ++ sub ++ "@" ++ iss ++ "</h3>\n" ++
  "<a href=\"/\">Back to Login</a>\n</body>\n</html>"

/-- The call `fmt.Sprintf(errorHtml, error, message)` on two strings. -/
def errorHtml (error message : String) : String :=
  "<!DOCTYPE html>\n<html>\n<head>\n" ++
  "<link rel=\"stylesheet\" href=\"https://cdn.simplecss.org/simple.min.css\">\n" ++
  "</head>\n<body>\n<h3>Error " ++ error ++ "</h3>\n<p>" ++ message ++ "</p>\n" ++
  "<a href=\"/\">Back to Login</a>\n</body>\n</html>"

/-- The function `errorPage`. -/
def errorPage (error message : String) : String :=
  errorHtml error message

/-- The call `fmt.Sprintf(opOptionFmt, value, label)` on two strings. -/
def opOptionFmt (value label : String) : String :=
  "<option value=\"" ++ value ++ "\">" ++ label ++ "</option>"

/-! ## Data of the other packages -/

/-- Modelled from the spec: the type `pkce.PKCE` (package `examples/rp/pkce`), a pair
of which the relying party keeps the verifier; the challenge is derived from it. -/
structure PKCE where
  verifier : String
  deriving DecidableEq, Repr

/-- Modelled from the spec: the constructor `pkce.NewS256PKCE`, a pair for the given
verifier under the SHA-256 based transformation. -/
def NewS256PKCE (verifier : String) : PKCE :=
  { verifier := verifier }

/-- Modelled from the spec: the accessor `(*pkce.PKCE).Verifier`. -/
def PKCE.Verifier (p : PKCE) : String :=
  p.verifier

/-- Modelled from the spec: the label `pkce.TransformationS256.String()` that is sent as
`code_challenge_method`. -/
def TransformationS256 : String :=
  "S256"

/-- Modelled from the spec: the helper `utils.FirstNonEmpty` (package `internal/utils`),
the first of its arguments that is not the empty string, the empty string if none. -/
def FirstNonEmpty : List String → String
  | [] => ""
  | v :: rest => if v ≠ "" then v else FirstNonEmpty rest

/-- The struct `stateData`; the pointer `codeChallange` is the one `NewS256PKCE` returned. -/
structure stateData where
  codeChallange : PKCE
  issuer : String
  deriving DecidableEq, Repr

/-- The fields of `pkg.CollectedEntity` that `handleHome` reads. -/
structure CollectedEntity where
  EntityID : String
  DisplayNames : GoMap String
  deriving DecidableEq, Repr

/-- The value `apimodel.EntityCollectionRequest` built by `handleHome`. -/
structure EntityCollectionRequest where
  TrustAnchor : String
  EntityTypes : List String
  deriving DecidableEq, Repr

/-- The two collectors `handleHome` chooses from. -/
inductive EntityCollector where
  | SmartRemoteEntityCollector (TrustAnchors : List String)
  | SimpleEntityCollector
  deriving DecidableEq, Repr

/-- The one filter `handleHome` may install. -/
inductive EntityCollectionFilter where
  | OPSupportsAutomaticRegistration (trustAnchors : List String)
  deriving DecidableEq, Repr

/-- The field of `pkg.TokenResponse` that `handleCodeExchange` reads. -/
structure TokenResponse where
  IDToken : String
  deriving DecidableEq, Repr

/-- The OAuth error payload returned by the token endpoint. -/
structure OAuthError where
  Error : String
  ErrorDescription : String
  deriving DecidableEq, Repr

/-- The three results of `(*pkg.FederationLeaf).CodeExchange`; a nil pointer or a nil
error is `none`, and an error is kept as its `Error()` text. -/
structure CodeExchangeResult where
  tokenRes : Option TokenResponse
  errRes : Option OAuthError
  err : Option String
  deriving DecidableEq, Repr

/-- The part of a parsed `jws.Message` that is read: its payload bytes. -/
structure JWSMessage where
  Payload : List UInt8
  deriving DecidableEq, Repr

/-- The dynamic values `json.Unmarshal` stores in a `map[string]any`; a number is kept
as its lexeme. -/
inductive GoAny where
  | nil
  | bool (b : Bool)
  | float64 (lexeme : String)
  | string (s : String)
  | slice (items : List GoAny)
  | map (fields : List (String × GoAny))

/-! ## Configuration, environment, server state -/

/-- The fields of the configuration `conf` that the handlers read; `TrustAnchors` holds the
entity IDs of the configured anchors. -/
structure Config where
  EntityID : String
  ClientName : String
  LogoURI : String
  OnlyAutomaticOPs : Bool
  UseEntityCollectionEndpoint : Bool
  TrustAnchors : List String
  deriving DecidableEq, Repr

/-- The collaborators of the handlers, as oracles.  An error is its `Error()` text. -/
structure Env where
  /-- The draw number `i` of `randASCIIString(n)`. -/
  randASCIIString : Nat → Nat → String
  /-- The method `(*pkce.PKCE).Challenge`. -/
  Challenge : PKCE → Except String String
  /-- The error of `pkg.NewFederationLeaf`, if it fails. -/
  NewFederationLeaf : Option String
  /-- The method `GetAuthorizationURL(issuer, redirectURI, state, scope, params)`. -/
  GetAuthorizationURL : String → String → String → String → Values → Except String String
  /-- The method `CodeExchange(issuer, code, redirectURI, params)`. -/
  CodeExchange : String → String → String → Values → CodeExchangeResult
  /-- The method `EntityConfigurationJWT()`. -/
  EntityConfigurationJWT : Except String String
  /-- The function `jws.ParseString`. -/
  ParseString : String → Except String JWSMessage
  /-- The function `json.Unmarshal` into an empty `map[string]any`. -/
  Unmarshal : List UInt8 → Except String (GoMap GoAny)
  /-- What `fmt` prints for the verb `%s` on an operand that is no string. -/
  badVerb : GoAny → String
  /-- The answer of `CollectEntities` to the call number `i` of a request. -/
  CollectEntities : Nat → EntityCollector → List EntityCollectionFilter →
    EntityCollectionRequest → List CollectedEntity
  /-- The order in which a `range` over the map of candidates visits its entries. -/
  rangeOrder : GoMap CollectedEntity → GoMap CollectedEntity

/-- The package-level variables; a pointer is kept as "is not nil", and `randDraws` counts
the draws made from the random source. -/
structure ServerState where
  stateDB : GoMap stateData
  redirectURI : String
  authBuilder : Bool
  _fedLeaf : Bool
  randDraws : Nat
  deriving DecidableEq, Repr

/-- A call made on the federation leaf. -/
inductive Call where
  | GetAuthorizationURL (issuer redirectURI state scope : String) (params : Values)
  | CodeExchange (issuer code redirectURI : String) (params : Values)
  | EntityConfigurationJWT
  deriving DecidableEq, Repr

/-- How a handler ends: it wrote a response, it redirected (`http.Redirect`), it ended the
process (`log.Fatal`), or it dereferenced a nil pointer. -/
inductive Outcome where
  | wrote (status : Nat) (header : List (String × String)) (body : String)
  | redirect (url : String) (code : Nat)
  | fatal (err : String)
  | panic
  deriving DecidableEq, Repr

/-- What a handler leaves behind: how it ended, the package-level variables, and the calls
it made on the federation leaf, in order. -/
structure HandlerResult where
  outcome : Outcome
  state : ServerState
  calls : List Call
  deriving DecidableEq, Repr

/-- The part of `initServer` before the server starts listening. -/
def initServer (conf : Config) (randDraws : Nat) : ServerState :=
  { stateDB := []
    redirectURI := conf.EntityID ++ "/" ++ "redirect"
    authBuilder := false
    _fedLeaf := false
    randDraws := randDraws }

/-- The function `fedLeaf`: builds the leaf on first use, `log.Fatal` if that fails.  The
refresh of the trust marks of the leaf from `conf` touches no variable kept here. -/
def fedLeaf (env : Env) (st : ServerState) : Except String ServerState :=
  if st._fedLeaf then .ok st
  else
    match env.NewFederationLeaf with
    | some err => .error err
    | none => .ok { st with _fedLeaf := true }

/-! ## `handleHome` -/

/-- The slice `filters` of `handleHome`. -/
def homeFilters (conf : Config) : List EntityCollectionFilter :=
  if conf.OnlyAutomaticOPs then
    [] ++ [EntityCollectionFilter.OPSupportsAutomaticRegistration conf.TrustAnchors]
  else []

/-- The variable `collector` of `handleHome`. -/
def homeCollector (conf : Config) : EntityCollector :=
  if conf.UseEntityCollectionEndpoint then
    EntityCollector.SmartRemoteEntityCollector conf.TrustAnchors
  else EntityCollector.SimpleEntityCollector

/-- The slice `ops` that the call number `i`, for the trust anchor `ta`, returns. -/
def homeOps (env : Env) (conf : Config) (i : Nat) (ta : String) : List CollectedEntity :=
  env.CollectEntities i (homeCollector conf) (homeFilters conf)
    { TrustAnchor := ta, EntityTypes := ["openid_provider"] }

/-- The inner loop `for _, op := range ops { allOPs[op.EntityID] = op }`. -/
def storeOps (allOPs : GoMap CollectedEntity) (ops : List CollectedEntity) :
    GoMap CollectedEntity :=
  ops.foldl (fun m op => mapSet m op.EntityID op) allOPs

/-- The outer loop over `conf.TrustAnchors`, from the anchor number `i` on. -/
def collectLoop (env : Env) (conf : Config) :
    List String → Nat → GoMap CollectedEntity → GoMap CollectedEntity
  | [], _, allOPs => allOPs
  | ta :: rest, i, allOPs =>
    collectLoop env conf rest (i + 1) (storeOps allOPs (homeOps env conf i ta))

/-- The map `allOPs` of `handleHome` once the loop over the trust anchors is done. -/
def allOPs (env : Env) (conf : Config) : GoMap CollectedEntity :=
  collectLoop env conf conf.TrustAnchors 0 []

/-- The read `op.DisplayNames[key]`: the empty string for an absent key. -/
def displayName (op : CollectedEntity) (key : String) : String :=
  (mapGet op.DisplayNames key).getD ""

/-- The label that `handleHome` shows for a candidate. -/
def opLabel (op : CollectedEntity) : String :=
  FirstNonEmpty
    [displayName op "openid_provider", displayName op "federation_entity", op.EntityID]

/-- The `<option>` element that `handleHome` appends for a candidate. -/
def opOption (op : CollectedEntity) : String :=
  opOptionFmt op.EntityID (opLabel op)

/-- The loop `for _, op := range allOPs { options += ... }` over the visited entries. -/
def renderOptions (visited : GoMap CollectedEntity) : String :=
  visited.foldl (fun options p => options ++ opOption p.2) ""

/-- The variable `img` of `handleHome`. -/
def homeImg (conf : Config) : String :=
  if conf.LogoURI ≠ "" then
    "<img src=\"" ++ conf.LogoURI ++ "\" alt=\"" ++ "Logo" ++ "\" />"
  else ""

/-- The handler `handleHome`. -/
def handleHome (env : Env) (conf : Config) (st : ServerState) : HandlerResult :=
  let options := renderOptions (env.rangeOrder (allOPs env conf))
  { outcome := Outcome.wrote 200 [] (loginHtml conf.ClientName (homeImg conf) options)
    state := st
    calls := [] }

/-! ## `handleLogin` -/

/-- The handler `handleLogin` on the query `query` of the request.  Building `authBuilder`
on first use is taken to succeed; each `log.Fatal(err)` is the outcome `fatal`. -/
def handleLogin (env : Env) (st : ServerState) (query : Values) : HandlerResult :=
  let st0 := if st.authBuilder then st else { st with authBuilder := true }
  let op := Values.Get query "op"
  let state := env.randASCIIString st0.randDraws 32
  let pkceChallenge := NewS256PKCE (env.randASCIIString (st0.randDraws + 1) 64)
  let st1 := { st0 with
    stateDB := mapSet st0.stateDB state { codeChallange := pkceChallenge, issuer := op }
    randDraws := st0.randDraws + 2 }
  match env.Challenge pkceChallenge with
  | .error err => { outcome := Outcome.fatal err, state := st1, calls := [] }
  | .ok challenge =>
    let nonce := env.randASCIIString st1.randDraws 32
    let st2 := { st1 with randDraws := st1.randDraws + 1 }
    let params : Values := []
    let params := Values.Set params "nonce" nonce
    let params := Values.Set params "code_challenge" challenge
    let params := Values.Set params "code_challenge_method" TransformationS256
    let params := Values.Set params "prompt" "consent"
    match fedLeaf env st2 with
    | .error err => { outcome := Outcome.fatal err, state := st2, calls := [] }
    | .ok st3 =>
      let call := Call.GetAuthorizationURL op st3.redirectURI state "openid" params
      match env.GetAuthorizationURL op st3.redirectURI state "openid" params with
      | .error err => { outcome := Outcome.fatal err, state := st3, calls := [call] }
      | .ok authURL =>
        { outcome := Outcome.redirect authURL 303, state := st3, calls := [call] }

/-! ## `handleCodeExchange` -/

/-- The operand of the verb `%s` as `fmt` prints it: a string as it is. -/
def verbS (env : Env) : Option GoAny → String
  | some (GoAny.string s) => s
  | some GoAny.nil => "%!s(<nil>)"
  | none => "%!s(<nil>)"
  | some v => env.badVerb v

/-- The handler `handleCodeExchange` on the query `query` of the request.  Reading
`tokenRes.IDToken` through a nil `tokenRes` is the outcome `panic`. -/
def handleCodeExchange (env : Env) (st : ServerState) (query : Values) : HandlerResult :=
  let code := Values.Get query "code"
  let state := Values.Get query "state"
  let e := Values.Get query "error"
  let errorDescription := Values.Get query "error_description"
  if e ≠ "" then
    { outcome := Outcome.wrote 444 [] (errorPage e errorDescription), state := st, calls := [] }
  else
    match mapGet st.stateDB state with
    | none =>
      { outcome := Outcome.wrote 444 [] (errorPage "state mismatch" ""), state := st, calls := [] }
    | some stateInfo =>
      let params : Values := []
      let params := Values.Set params "code_verifier" stateInfo.codeChallange.Verifier
      match fedLeaf env st with
      | .error err => { outcome := Outcome.fatal err, state := st, calls := [] }
      | .ok st1 =>
        let call := Call.CodeExchange stateInfo.issuer code st1.redirectURI params
        let res := env.CodeExchange stateInfo.issuer code st1.redirectURI params
        match res.err with
        | some err =>
          { outcome := Outcome.wrote 500 [] (errorPage "internal error" err)
            state := st1, calls := [call] }
        | none =>
          match res.errRes with
          | some errRes =>
            { outcome := Outcome.wrote 444 [] (errorPage errRes.Error errRes.ErrorDescription)
              state := st1, calls := [call] }
          | none =>
            match res.tokenRes with
            | none => { outcome := Outcome.panic, state := st1, calls := [call] }
            | some tokenRes =>
              match env.ParseString tokenRes.IDToken with
              | .error err =>
                { outcome := Outcome.wrote 500 [] (errorPage "internal error" err)
                  state := st1, calls := [call] }
              | .ok msg =>
                let st2 := { st1 with stateDB := mapDelete st1.stateDB state }
                match env.Unmarshal msg.Payload with
                | .error err =>
                  { outcome := Outcome.wrote 500 [] (errorPage "internal error" err)
                    state := st2, calls := [call] }
                | .ok msgData =>
                  { outcome := Outcome.wrote 200 []
                      (userHtml (verbS env (mapGet msgData "sub"))
                        (verbS env (mapGet msgData "iss")))
                    state := st2, calls := [call] }

/-! ## `handleEntityConfiguration` -/

/-- The handler `handleEntityConfiguration`. -/
def handleEntityConfiguration (env : Env) (st : ServerState) : HandlerResult :=
  match fedLeaf env st with
  | .error err => { outcome := Outcome.fatal err, state := st, calls := [] }
  | .ok st1 =>
    match env.EntityConfigurationJWT with
    | .error err =>
      { outcome := Outcome.fatal err, state := st1, calls := [Call.EntityConfigurationJWT] }
    | .ok jwt =>
      { outcome := Outcome.wrote 200 [("Content-Type", "application/entity-statement+jwt")] jwt
        state := st1, calls := [Call.EntityConfigurationJWT] }

/-! ## Reachable states -/

/-- The invariant of the package-level variables: once `stateDB` holds an entry, the
federation leaf has been built (`handleLogin` stores the entry and then needs the leaf). -/
def Coherent (st : ServerState) : Prop :=
  st.stateDB ≠ [] → st._fedLeaf = true

/-- The states the serving process passes through: `initServer`, then any handler on any
request, as long as the handler did not end the process. -/
inductive Reachable : ServerState → Prop where
  | init (conf : Config) (n : Nat) : Reachable (initServer conf n)
  | home (env : Env) (conf : Config) (st : ServerState) :
      Reachable st → Reachable (handleHome env conf st).state
  | login (env : Env) (st : ServerState) (query : Values) :
      Reachable st → (∀ err, (handleLogin env st query).outcome ≠ Outcome.fatal err) →
      Reachable (handleLogin env st query).state
  | codeExchange (env : Env) (st : ServerState) (query : Values) :
      Reachable st → (∀ err, (handleCodeExchange env st query).outcome ≠ Outcome.fatal err) →
      Reachable (handleCodeExchange env st query).state
  | entityConfiguration (env : Env) (st : ServerState) :
      Reachable st → (∀ err, (handleEntityConfiguration env st).outcome ≠ Outcome.fatal err) →
      Reachable (handleEntityConfiguration env st).state

/-! ## Notions used in the statements -/

/-- The authorization parameters `handleLogin` assembles. -/
def loginParams (nonce challenge : String) : Values :=
  [("nonce", [nonce]), ("code_challenge", [challenge]),
    ("code_challenge_method", ["S256"]), ("prompt", ["consent"])]

/-- The package-level variables after a login that went through. -/
def afterLogin (env : Env) (st : ServerState) (query : Values) : ServerState :=
  { stateDB := mapSet st.stateDB (env.randASCIIString st.randDraws 32)
      { codeChallange := NewS256PKCE (env.randASCIIString (st.randDraws + 1) 64)
        issuer := Values.Get query "op" }
    redirectURI := st.redirectURI
    authBuilder := true
    _fedLeaf := true
    randDraws := st.randDraws + 3 }

/-- The answer of the token endpoint to the exchange the callback makes for a stored entry. -/
def exchangeOf (env : Env) (st : ServerState) (query : Values) (stateInfo : stateData) :
    CodeExchangeResult :=
  env.CodeExchange stateInfo.issuer (Values.Get query "code") st.redirectURI
    [("code_verifier", [stateInfo.codeChallange.Verifier])]

/-- The exchange returned neither an error nor an OAuth error payload but a token response,
and its ID token parses as a JWS. -/
def TokenParses (env : Env) (st : ServerState) (query : Values) (stateInfo : stateData) : Prop :=
  ∃ tokenRes msg,
    (exchangeOf env st query stateInfo).err = none ∧
    (exchangeOf env st query stateInfo).errRes = none ∧
    (exchangeOf env st query stateInfo).tokenRes = some tokenRes ∧
    env.ParseString tokenRes.IDToken = .ok msg

/-- The entities the collector returned, in the order in which `handleHome` stores them:
anchor by anchor from the anchor number `i` on, and within an anchor in list order. -/
def returnedFrom (env : Env) (conf : Config) : List String → Nat → List CollectedEntity
  | [], _ => []
  | ta :: rest, i => homeOps env conf i ta ++ returnedFrom env conf rest (i + 1)

/-- All entities returned during one run of `handleHome`. -/
def returnedOps (env : Env) (conf : Config) : List CollectedEntity :=
  returnedFrom env conf conf.TrustAnchors 0

/-! ## Environments and states used as concrete inputs -/

/-- An environment in which every collaborator succeeds: the token endpoint answers with
the ID token `"jws"`, whose payload decodes to the claims `sub = u1`, `iss = https://op.example`. -/
def okEnv : Env where
  randASCIIString := fun i n => "r" ++ toString i ++ "n" ++ toString n
  Challenge := fun p => .ok ("c" ++ p.verifier)
  NewFederationLeaf := none
  GetAuthorizationURL := fun issuer _ state _ _ => .ok (issuer ++ "/authorize?state=" ++ state)
  CodeExchange := fun _ _ _ _ => { tokenRes := some { IDToken := "jws" }, errRes := none, err := none }
  EntityConfigurationJWT := .ok "a.b.c"
  ParseString := fun s => if s = "jws" then .ok { Payload := [123, 125] } else .error "bad token"
  Unmarshal := fun _ =>
    .ok [("sub", GoAny.string "u1"), ("iss", GoAny.string "https://op.example")]
  badVerb := fun _ => "%!s(?)"
  CollectEntities := fun _ _ _ req =>
    if req.TrustAnchor = "https://ta1.example" then
      [{ EntityID := "https://op.example", DisplayNames := [("openid_provider", "OP one")] },
       { EntityID := "https://op2.example", DisplayNames := [] }]
    else
      [{ EntityID := "https://op.example", DisplayNames := [("federation_entity", "Fed one")] }]
  rangeOrder := fun m => m

/-- An environment whose token endpoint cannot be reached. -/
def downEnv : Env :=
  { okEnv with
    CodeExchange := fun _ _ _ _ => { tokenRes := none, errRes := none, err := some "timeout" } }

/-- An environment whose federation leaf cannot build an authorization URL. -/
def noURLEnv : Env :=
  { okEnv with GetAuthorizationURL := fun _ _ _ _ _ => .error "unknown issuer" }

/-- An environment in which the PKCE challenge cannot be computed. -/
def noChallengeEnv : Env :=
  { okEnv with Challenge := fun _ => .error "unknown transformation" }

/-- A state after one login: one session, for the issuer `https://op.example`. -/
def oneSession : ServerState :=
  { stateDB := [("s1", { codeChallange := NewS256PKCE "v1", issuer := "https://op.example" })]
    redirectURI := "https://rp.example/redirect"
    authBuilder := true
    _fedLeaf := true
    randDraws := 3 }

/-- A configuration with two trust anchors. -/
def twoAnchors : Config :=
  { EntityID := "https://rp.example"
    ClientName := "RP"
    LogoURI := ""
    OnlyAutomaticOPs := false
    UseEntityCollectionEndpoint := false
    TrustAnchors := ["https://ta1.example", "https://ta2.example"] }

/-! ## Lemmas on maps -/

theorem mapGet_mapSet_self {V : Type} (m : GoMap V) (k : String) (v : V) :
    mapGet (mapSet m k v) k = some v := by
  induction m with
  | nil => simp [mapSet, mapGet]
  | cons p rest ih =>
    obtain ⟨k', v'⟩ := p
    by_cases h : k' = k
    · simp [mapSet, mapGet, h]
    · simp [mapSet, mapGet, h, ih]

theorem mapGet_mapSet_of_ne {V : Type} (m : GoMap V) (k k₀ : String) (v : V) (hne : k₀ ≠ k) :
    mapGet (mapSet m k v) k₀ = mapGet m k₀ := by
  induction m with
  | nil => simp [mapSet, mapGet, Ne.symm hne]
  | cons p rest ih =>
    obtain ⟨k', v'⟩ := p
    by_cases h : k' = k
    · subst h
      simp [mapSet, mapGet, Ne.symm hne]
    · by_cases h0 : k' = k₀
      · subst h0
        simp [mapSet, mapGet, h]
      · simp [mapSet, mapGet, h, h0, ih]

theorem mapGet_mapDelete_self {V : Type} (m : GoMap V) (k : String) :
    mapGet (mapDelete m k) k = none := by
  induction m with
  | nil => simp [mapDelete, mapGet]
  | cons p rest ih =>
    obtain ⟨k', v'⟩ := p
    by_cases h : k' = k
    · simp [mapDelete, h, ih]
    · simp [mapDelete, h, mapGet, ih]

theorem mapGet_mapDelete_of_ne {V : Type} (m : GoMap V) (k k₀ : String) (hne : k₀ ≠ k) :
    mapGet (mapDelete m k) k₀ = mapGet m k₀ := by
  induction m with
  | nil => simp [mapDelete, mapGet]
  | cons p rest ih =>
    obtain ⟨k', v'⟩ := p
    by_cases h : k' = k
    · subst h
      simp [mapDelete, mapGet, Ne.symm hne, ih]
    · by_cases h0 : k' = k₀
      · subst h0
        simp [mapDelete, h, mapGet]
      · simp [mapDelete, h, mapGet, h0, ih]

theorem mapDelete_eq_self_of_none {V : Type} (m : GoMap V) (k : String)
    (h : mapGet m k = none) : mapDelete m k = m := by
  induction m with
  | nil => simp [mapDelete]
  | cons p rest ih =>
    obtain ⟨k', v'⟩ := p
    by_cases hk : k' = k
    · simp [mapGet, hk] at h
    · simp only [mapGet, hk, if_false] at h
      simp [mapDelete, hk, ih h]

theorem mem_mapKeys_of_mapGet {V : Type} (m : GoMap V) (k : String) (v : V)
    (h : mapGet m k = some v) : k ∈ mapKeys m := by
  induction m with
  | nil => simp [mapGet] at h
  | cons p rest ih =>
    obtain ⟨k', v'⟩ := p
    by_cases hk : k' = k
    · simp [mapKeys, hk]
    · simp only [mapGet, hk, if_false] at h
      have := ih h
      simp only [mapKeys] at this
      simp [mapKeys, this]

theorem mapGet_isSome_of_mem_mapKeys {V : Type} (m : GoMap V) (k : String)
    (h : k ∈ mapKeys m) : ∃ v, mapGet m k = some v := by
  induction m with
  | nil => simp [mapKeys] at h
  | cons p rest ih =>
    obtain ⟨k', v'⟩ := p
    by_cases hk : k' = k
    · exact ⟨v', by simp [mapGet, hk]⟩
    · have hmem : k ∈ mapKeys rest := by
        simp only [mapKeys, List.map_cons, List.mem_cons] at h
        rcases h with h | h
        · exact absurd h.symm hk
        · simpa [mapKeys] using h
      obtain ⟨v, hv⟩ := ih hmem
      exact ⟨v, by simp [mapGet, hk, hv]⟩

theorem mapDelete_ne_of_mapGet {V : Type} (m : GoMap V) (k : String) (v : V)
    (h : mapGet m k = some v) : mapDelete m k ≠ m := by
  intro heq
  rw [← heq, mapGet_mapDelete_self] at h
  cases h

theorem ne_nil_of_mapGet {V : Type} (m : GoMap V) (k : String) (v : V)
    (h : mapGet m k = some v) : m ≠ [] := by
  intro hnil
  subst hnil
  simp [mapGet] at h

/-! ## Lemmas on the federation leaf and the invariant -/

theorem fedLeaf_of_built (env : Env) (st : ServerState) (h : st._fedLeaf = true) :
    fedLeaf env st = .ok st := by
  simp [fedLeaf, h]

theorem fedLeaf_ok_spec (env : Env) (st st1 : ServerState) (h : fedLeaf env st = .ok st1) :
    st1 = { st with _fedLeaf := true } := by
  unfold fedLeaf at h
  by_cases hb : st._fedLeaf = true
  · simp only [hb, if_true] at h
    cases h
    cases st
    simp_all
  · simp only [hb] at h
    cases hn : env.NewFederationLeaf with
    | some err => simp [hn] at h
    | none =>
      simp only [hn] at h
      cases h
      rfl

theorem Coherent.built (st : ServerState) (h : Coherent st) (k : String) (v : stateData)
    (hk : mapGet st.stateDB k = some v) : st._fedLeaf = true :=
  h (ne_nil_of_mapGet st.stateDB k v hk)

/-- The callback handler on a found entry, once the leaf is known to be built: the rest of
the handler as one expression. -/
theorem handleCodeExchange_found (env : Env) (st : ServerState) (query : Values)
    (stateInfo : stateData) (herr : Values.Get query "error" = "")
    (hfound : mapGet st.stateDB (Values.Get query "state") = some stateInfo)
    (hleaf : st._fedLeaf = true) :
    handleCodeExchange env st query =
      (let call := Call.CodeExchange stateInfo.issuer (Values.Get query "code") st.redirectURI
          [("code_verifier", [stateInfo.codeChallange.Verifier])]
       let res := env.CodeExchange stateInfo.issuer (Values.Get query "code") st.redirectURI
          [("code_verifier", [stateInfo.codeChallange.Verifier])]
       match res.err with
       | some err =>
         { outcome := Outcome.wrote 500 [] (errorPage "internal error" err)
           state := st, calls := [call] }
       | none =>
         match res.errRes with
         | some errRes =>
           { outcome := Outcome.wrote 444 [] (errorPage errRes.Error errRes.ErrorDescription)
             state := st, calls := [call] }
         | none =>
           match res.tokenRes with
           | none => { outcome := Outcome.panic, state := st, calls := [call] }
           | some tokenRes =>
             match env.ParseString tokenRes.IDToken with
             | .error err =>
               { outcome := Outcome.wrote 500 [] (errorPage "internal error" err)
                 state := st, calls := [call] }
             | .ok msg =>
               match env.Unmarshal msg.Payload with
               | .error err =>
                 { outcome := Outcome.wrote 500 [] (errorPage "internal error" err)
                   state := { st with stateDB := mapDelete st.stateDB (Values.Get query "state") }
                   calls := [call] }
               | .ok msgData =>
                 { outcome := Outcome.wrote 200 []
                     (userHtml (verbS env (mapGet msgData "sub"))
                       (verbS env (mapGet msgData "iss")))
                   state := { st with stateDB := mapDelete st.stateDB (Values.Get query "state") }
                   calls := [call] }) := by
  simp only [handleCodeExchange, herr, hfound, fedLeaf_of_built env st hleaf, Values.Set, mapSet,
    ne_eq, not_true_eq_false, if_false]

theorem handleCodeExchange_mismatch (env : Env) (st : ServerState) (query : Values)
    (herr : Values.Get query "error" = "")
    (hnone : mapGet st.stateDB (Values.Get query "state") = none) :
    handleCodeExchange env st query =
      { outcome := Outcome.wrote 444 [] (errorPage "state mismatch" ""), state := st, calls := [] } := by
  simp only [handleCodeExchange, herr, hnone, ne_eq, not_true_eq_false, if_false]

/-! ## The callback: upstream error and state mismatch -/

/-- C3: a callback whose `error` parameter is not empty is answered with status 444 and the
body `errorPage(error, error_description)`; no call is made on the federation leaf, and the
package-level variables, `stateDB` among them, stay as they were.  This holds for every
`stateDB` and every `code`, `state` and `error_description`. -/
theorem handleCodeExchange_upstream_error (env : Env) (st : ServerState) (query : Values)
    (herr : Values.Get query "error" ≠ "") :
    (handleCodeExchange env st query).outcome =
        Outcome.wrote 444 []
          (errorPage (Values.Get query "error") (Values.Get query "error_description")) ∧
      (handleCodeExchange env st query).calls = [] ∧
      (handleCodeExchange env st query).state = st ∧
      (handleCodeExchange env st query).state.stateDB = st.stateDB := by
  simp [handleCodeExchange, herr]

/-- The upstream error short-circuit on a callback that also names a stored state. -/
theorem handleCodeExchange_upstream_error_witness :
    Values.Get [("error", ["access_denied"]), ("error_description", ["User cancelled"]),
        ("state", ["s1"]), ("code", ["abc"])] "error" ≠ "" ∧
      (handleCodeExchange okEnv oneSession
        [("error", ["access_denied"]), ("error_description", ["User cancelled"]),
          ("state", ["s1"]), ("code", ["abc"])]).state = oneSession :=
  ⟨by decide,
    (handleCodeExchange_upstream_error okEnv oneSession
      [("error", ["access_denied"]), ("error_description", ["User cancelled"]),
        ("state", ["s1"]), ("code", ["abc"])] (by decide)).2.2.1⟩

/-- C4: a callback with an empty `error` parameter whose `state` is no key of `stateDB` is
answered with status 444 and the fixed body `errorPage("state mismatch", "")`, the same for
every such `state` and `code`; no call is made on the federation leaf and `stateDB` stays as
it was. -/
theorem handleCodeExchange_state_mismatch (env : Env) (st : ServerState) (query : Values)
    (herr : Values.Get query "error" = "")
    (hnone : mapGet st.stateDB (Values.Get query "state") = none) :
    (handleCodeExchange env st query).outcome =
        Outcome.wrote 444 [] (errorPage "state mismatch" "") ∧
      (handleCodeExchange env st query).calls = [] ∧
      (handleCodeExchange env st query).state = st ∧
      (handleCodeExchange env st query).state.stateDB = st.stateDB := by
  simp [handleCodeExchange_mismatch env st query herr hnone]

/-- The state mismatch on the callback `code=abc&state=unknown`. -/
theorem handleCodeExchange_state_mismatch_witness :
    mapGet oneSession.stateDB (Values.Get [("code", ["abc"]), ("state", ["unknown"])] "state") =
        none ∧
      (handleCodeExchange okEnv oneSession [("code", ["abc"]), ("state", ["unknown"])]).calls =
        [] :=
  ⟨by decide,
    (handleCodeExchange_state_mismatch okEnv oneSession [("code", ["abc"]), ("state", ["unknown"])]
      (by decide) (by decide)).2.1⟩

/-! ## Lemmas on `handleLogin` -/

theorem fedLeaf_of_available (env : Env) (st : ServerState)
    (h : st._fedLeaf = true ∨ env.NewFederationLeaf = none) :
    fedLeaf env st = .ok { st with _fedLeaf := true } := by
  by_cases hb : st._fedLeaf = true
  · rw [fedLeaf_of_built env st hb]
    cases st
    simp_all
  · rcases h with h | h
    · exact absurd h hb
    · simp [fedLeaf, hb, h]

theorem handleLogin_ok (env : Env) (st : ServerState) (query : Values)
    (challenge authURL : String)
    (hchal : env.Challenge (NewS256PKCE (env.randASCIIString (st.randDraws + 1) 64)) =
      .ok challenge)
    (hleaf : st._fedLeaf = true ∨ env.NewFederationLeaf = none)
    (hurl : env.GetAuthorizationURL (Values.Get query "op") st.redirectURI
      (env.randASCIIString st.randDraws 32) "openid"
      (loginParams (env.randASCIIString (st.randDraws + 2) 32) challenge) = .ok authURL) :
    handleLogin env st query =
      { outcome := Outcome.redirect authURL 303
        state := afterLogin env st query
        calls := [Call.GetAuthorizationURL (Values.Get query "op") st.redirectURI
          (env.randASCIIString st.randDraws 32) "openid"
          (loginParams (env.randASCIIString (st.randDraws + 2) 32) challenge)] } := by
  have hparams : Values.Set (Values.Set (Values.Set (Values.Set []
      "nonce" (env.randASCIIString (st.randDraws + 2) 32)) "code_challenge" challenge)
      "code_challenge_method" TransformationS256) "prompt" "consent" =
      loginParams (env.randASCIIString (st.randDraws + 2) 32) challenge := by
    simp [Values.Set, mapSet, loginParams, TransformationS256]
  obtain ⟨db, ru, ab, fl, rd⟩ := st
  simp only at hchal hleaf hurl hparams
  have hfl : ∀ (d : GoMap stateData) (n : Nat),
      fedLeaf env ⟨d, ru, true, fl, n⟩ = .ok ⟨d, ru, true, true, n⟩ :=
    fun d n => fedLeaf_of_available env _ hleaf
  cases ab <;> simp [handleLogin, hchal, hparams, hfl, hurl, afterLogin, Nat.add_assoc]

theorem handleLogin_builder_error (env : Env) (st : ServerState) (query : Values)
    (challenge err : String)
    (hchal : env.Challenge (NewS256PKCE (env.randASCIIString (st.randDraws + 1) 64)) =
      .ok challenge)
    (hleaf : st._fedLeaf = true ∨ env.NewFederationLeaf = none)
    (hurl : env.GetAuthorizationURL (Values.Get query "op") st.redirectURI
      (env.randASCIIString st.randDraws 32) "openid"
      (loginParams (env.randASCIIString (st.randDraws + 2) 32) challenge) = .error err) :
    (handleLogin env st query).outcome = Outcome.fatal err := by
  have hparams : Values.Set (Values.Set (Values.Set (Values.Set []
      "nonce" (env.randASCIIString (st.randDraws + 2) 32)) "code_challenge" challenge)
      "code_challenge_method" TransformationS256) "prompt" "consent" =
      loginParams (env.randASCIIString (st.randDraws + 2) 32) challenge := by
    simp [Values.Set, mapSet, loginParams, TransformationS256]
  obtain ⟨db, ru, ab, fl, rd⟩ := st
  simp only at hchal hleaf hurl hparams
  have hfl : ∀ (d : GoMap stateData) (n : Nat),
      fedLeaf env ⟨d, ru, true, fl, n⟩ = .ok ⟨d, ru, true, true, n⟩ :=
    fun d n => fedLeaf_of_available env _ hleaf
  cases ab <;> simp [handleLogin, hchal, hparams, hfl, hurl, Nat.add_assoc]

theorem handleLogin_challenge_error (env : Env) (st : ServerState) (query : Values)
    (err : String)
    (hchal : env.Challenge (NewS256PKCE (env.randASCIIString (st.randDraws + 1) 64)) =
      .error err) :
    (handleLogin env st query).outcome = Outcome.fatal err := by
  obtain ⟨db, ru, ab, fl, rd⟩ := st
  simp only at hchal
  cases ab <;> simp [handleLogin, hchal]

theorem handleLogin_of_not_fatal (env : Env) (st : ServerState) (query : Values)
    (h : ∀ err, (handleLogin env st query).outcome ≠ Outcome.fatal err) :
    ∃ challenge authURL,
      env.Challenge (NewS256PKCE (env.randASCIIString (st.randDraws + 1) 64)) = .ok challenge ∧
      (st._fedLeaf = true ∨ env.NewFederationLeaf = none) ∧
      env.GetAuthorizationURL (Values.Get query "op") st.redirectURI
        (env.randASCIIString st.randDraws 32) "openid"
        (loginParams (env.randASCIIString (st.randDraws + 2) 32) challenge) = .ok authURL := by
  obtain ⟨db, ru, ab, fl, rd⟩ := st
  simp only at h ⊢
  cases hc : env.Challenge (NewS256PKCE (env.randASCIIString (rd + 1) 64)) with
  | error e =>
    exfalso
    apply h e
    cases ab <;> simp [handleLogin, hc]
  | ok challenge =>
    have hparams : Values.Set (Values.Set (Values.Set (Values.Set []
        "nonce" (env.randASCIIString (rd + 2) 32)) "code_challenge" challenge)
        "code_challenge_method" TransformationS256) "prompt" "consent" =
        loginParams (env.randASCIIString (rd + 2) 32) challenge := by
      simp [Values.Set, mapSet, loginParams, TransformationS256]
    by_cases hl : fl = true ∨ env.NewFederationLeaf = none
    · have hfl : ∀ (d : GoMap stateData) (n : Nat),
          fedLeaf env ⟨d, ru, true, fl, n⟩ = .ok ⟨d, ru, true, true, n⟩ :=
        fun d n => fedLeaf_of_available env _ hl
      cases hu : env.GetAuthorizationURL (Values.Get query "op") ru
          (env.randASCIIString rd 32) "openid"
          (loginParams (env.randASCIIString (rd + 2) 32) challenge) with
      | error e =>
        exfalso
        apply h e
        cases ab <;> simp [handleLogin, hc, hparams, hfl, hu, Nat.add_assoc]
      | ok authURL => exact ⟨challenge, authURL, rfl, hl, hu⟩
    · simp only [not_or] at hl
      obtain ⟨hfl, hn⟩ := hl
      cases hn' : env.NewFederationLeaf with
      | none => exact absurd hn' hn
      | some e =>
        exfalso
        apply h e
        cases ab <;> simp [handleLogin, hc, fedLeaf, hfl, hn']

theorem handleLogin_state_of_not_fatal (env : Env) (st : ServerState) (query : Values)
    (h : ∀ err, (handleLogin env st query).outcome ≠ Outcome.fatal err) :
    (handleLogin env st query).state = afterLogin env st query := by
  obtain ⟨challenge, authURL, hc, hl, hu⟩ := handleLogin_of_not_fatal env st query h
  rw [handleLogin_ok env st query challenge authURL hc hl hu]

/-! ## Lemmas on `handleCodeExchange` -/

theorem handleCodeExchange_found_calls (env : Env) (st : ServerState) (query : Values)
    (stateInfo : stateData) (herr : Values.Get query "error" = "")
    (hfound : mapGet st.stateDB (Values.Get query "state") = some stateInfo)
    (hleaf : st._fedLeaf = true) :
    (handleCodeExchange env st query).calls =
      [Call.CodeExchange stateInfo.issuer (Values.Get query "code") st.redirectURI
        [("code_verifier", [stateInfo.codeChallange.Verifier])]] := by
  rw [handleCodeExchange_found env st query stateInfo herr hfound hleaf]
  simp only
  repeat' split
  all_goals rfl

theorem handleCodeExchange_found_consumed (env : Env) (st : ServerState) (query : Values)
    (stateInfo : stateData) (herr : Values.Get query "error" = "")
    (hfound : mapGet st.stateDB (Values.Get query "state") = some stateInfo)
    (hleaf : st._fedLeaf = true) (hparse : TokenParses env st query stateInfo) :
    (handleCodeExchange env st query).state =
      { st with stateDB := mapDelete st.stateDB (Values.Get query "state") } := by
  obtain ⟨tokenRes, msg, h1, h2, h3, h4⟩ := hparse
  rw [handleCodeExchange_found env st query stateInfo herr hfound hleaf]
  simp only [exchangeOf] at h1 h2 h3
  simp only [h1, h2, h3, h4]
  split <;> rfl

theorem handleCodeExchange_found_kept (env : Env) (st : ServerState) (query : Values)
    (stateInfo : stateData) (herr : Values.Get query "error" = "")
    (hfound : mapGet st.stateDB (Values.Get query "state") = some stateInfo)
    (hleaf : st._fedLeaf = true) (hparse : ¬ TokenParses env st query stateInfo) :
    (handleCodeExchange env st query).state = st := by
  rw [handleCodeExchange_found env st query stateInfo herr hfound hleaf]
  simp only
  split
  · rfl
  · split
    · rfl
    · split
      · rfl
      · split
        · rfl
        · exfalso
          apply hparse
          exact ⟨_, _, by assumption, by assumption, by assumption, by assumption⟩

theorem handleCodeExchange_found_err (env : Env) (st : ServerState) (query : Values)
    (stateInfo : stateData) (herr : Values.Get query "error" = "")
    (hfound : mapGet st.stateDB (Values.Get query "state") = some stateInfo)
    (hleaf : st._fedLeaf = true) (err : String)
    (h1 : (exchangeOf env st query stateInfo).err = some err) :
    (handleCodeExchange env st query).outcome =
      Outcome.wrote 500 [] (errorPage "internal error" err) := by
  rw [handleCodeExchange_found env st query stateInfo herr hfound hleaf]
  simp only [exchangeOf] at h1
  simp only [h1]

theorem handleCodeExchange_found_errRes (env : Env) (st : ServerState) (query : Values)
    (stateInfo : stateData) (herr : Values.Get query "error" = "")
    (hfound : mapGet st.stateDB (Values.Get query "state") = some stateInfo)
    (hleaf : st._fedLeaf = true) (errRes : OAuthError)
    (h1 : (exchangeOf env st query stateInfo).err = none)
    (h2 : (exchangeOf env st query stateInfo).errRes = some errRes) :
    (handleCodeExchange env st query).outcome =
      Outcome.wrote 444 [] (errorPage errRes.Error errRes.ErrorDescription) := by
  rw [handleCodeExchange_found env st query stateInfo herr hfound hleaf]
  simp only [exchangeOf] at h1 h2
  simp only [h1, h2]

theorem handleCodeExchange_found_unparsable (env : Env) (st : ServerState) (query : Values)
    (stateInfo : stateData) (herr : Values.Get query "error" = "")
    (hfound : mapGet st.stateDB (Values.Get query "state") = some stateInfo)
    (hleaf : st._fedLeaf = true) (tokenRes : TokenResponse) (err : String)
    (h1 : (exchangeOf env st query stateInfo).err = none)
    (h2 : (exchangeOf env st query stateInfo).errRes = none)
    (h3 : (exchangeOf env st query stateInfo).tokenRes = some tokenRes)
    (h4 : env.ParseString tokenRes.IDToken = .error err) :
    (handleCodeExchange env st query).outcome =
      Outcome.wrote 500 [] (errorPage "internal error" err) := by
  rw [handleCodeExchange_found env st query stateInfo herr hfound hleaf]
  simp only [exchangeOf] at h1 h2 h3
  simp only [h1, h2, h3, h4]

theorem handleCodeExchange_found_undecodable (env : Env) (st : ServerState) (query : Values)
    (stateInfo : stateData) (herr : Values.Get query "error" = "")
    (hfound : mapGet st.stateDB (Values.Get query "state") = some stateInfo)
    (hleaf : st._fedLeaf = true) (tokenRes : TokenResponse) (msg : JWSMessage) (err : String)
    (h1 : (exchangeOf env st query stateInfo).err = none)
    (h2 : (exchangeOf env st query stateInfo).errRes = none)
    (h3 : (exchangeOf env st query stateInfo).tokenRes = some tokenRes)
    (h4 : env.ParseString tokenRes.IDToken = .ok msg)
    (h5 : env.Unmarshal msg.Payload = .error err) :
    (handleCodeExchange env st query).outcome =
      Outcome.wrote 500 [] (errorPage "internal error" err) := by
  rw [handleCodeExchange_found env st query stateInfo herr hfound hleaf]
  simp only [exchangeOf] at h1 h2 h3
  simp only [h1, h2, h3, h4, h5]

theorem handleCodeExchange_found_decoded (env : Env) (st : ServerState) (query : Values)
    (stateInfo : stateData) (herr : Values.Get query "error" = "")
    (hfound : mapGet st.stateDB (Values.Get query "state") = some stateInfo)
    (hleaf : st._fedLeaf = true) (tokenRes : TokenResponse) (msg : JWSMessage)
    (msgData : GoMap GoAny)
    (h1 : (exchangeOf env st query stateInfo).err = none)
    (h2 : (exchangeOf env st query stateInfo).errRes = none)
    (h3 : (exchangeOf env st query stateInfo).tokenRes = some tokenRes)
    (h4 : env.ParseString tokenRes.IDToken = .ok msg)
    (h5 : env.Unmarshal msg.Payload = .ok msgData) :
    (handleCodeExchange env st query).outcome =
      Outcome.wrote 200 []
        (userHtml (verbS env (mapGet msgData "sub")) (verbS env (mapGet msgData "iss"))) := by
  rw [handleCodeExchange_found env st query stateInfo herr hfound hleaf]
  simp only [exchangeOf] at h1 h2 h3
  simp only [h1, h2, h3, h4, h5]

/-- After the entry of a state is gone, a callback with that state is a state mismatch. -/
theorem handleCodeExchange_after_delete (env : Env) (st : ServerState) (query : Values)
    (state : String) (herr : Values.Get query "error" = "")
    (hstate : Values.Get query "state" = state) :
    handleCodeExchange env { st with stateDB := mapDelete st.stateDB state } query =
      { outcome := Outcome.wrote 444 [] (errorPage "state mismatch" "")
        state := { st with stateDB := mapDelete st.stateDB state }
        calls := [] } := by
  apply handleCodeExchange_mismatch env _ query herr
  rw [hstate]
  exact mapGet_mapDelete_self st.stateDB state

/-! ## The invariant holds in every reachable state -/

theorem handleCodeExchange_coherent (env : Env) (st : ServerState) (query : Values)
    (h : Coherent st) : Coherent (handleCodeExchange env st query).state := by
  by_cases herr : Values.Get query "error" = ""
  · cases hfound : mapGet st.stateDB (Values.Get query "state") with
    | none =>
      rw [handleCodeExchange_mismatch env st query herr hfound]
      exact h
    | some stateInfo =>
      have hleaf := h.built st _ _ hfound
      by_cases hp : TokenParses env st query stateInfo
      · rw [handleCodeExchange_found_consumed env st query stateInfo herr hfound hleaf hp]
        intro _
        exact hleaf
      · rw [handleCodeExchange_found_kept env st query stateInfo herr hfound hleaf hp]
        exact h
  · have : (handleCodeExchange env st query).state = st := by
      simp [handleCodeExchange, herr]
    rw [this]
    exact h

theorem handleEntityConfiguration_coherent (env : Env) (st : ServerState) (h : Coherent st) :
    Coherent (handleEntityConfiguration env st).state := by
  unfold handleEntityConfiguration
  cases hf : fedLeaf env st with
  | error e => exact h
  | ok st1 =>
    have := fedLeaf_ok_spec env st st1 hf
    subst this
    simp only
    split <;> exact fun _ => rfl

/-- Every state the serving process passes through satisfies the invariant. -/
theorem Reachable.coherent {st : ServerState} (h : Reachable st) : Coherent st := by
  induction h with
  | init conf n => intro hne; exact absurd rfl hne
  | home env conf st _ ih => exact ih
  | login env st query _ hnf _ =>
    rw [handleLogin_state_of_not_fatal env st query hnf]
    exact fun _ => rfl
  | codeExchange env st query _ _ ih => exact handleCodeExchange_coherent env st query ih
  | entityConfiguration env st _ _ ih => exact handleEntityConfiguration_coherent env st ih

/-! ## The callback on a stored state -/

/-- C1, as stated, fails: the stored state `s1` is sent back with no `error` parameter, the
token exchange ends in a transport error, and the entry for `s1` is still in `stateDB`; the
same callback, sent again, is not answered with the state-mismatch page but reaches the token
exchange a second time. -/
theorem state_survives_failed_exchange :
    Values.Get [("code", ["abc"]), ("state", ["s1"])] "error" = "" ∧
      mapGet oneSession.stateDB (Values.Get [("code", ["abc"]), ("state", ["s1"])] "state") =
        some { codeChallange := NewS256PKCE "v1", issuer := "https://op.example" } ∧
      (handleCodeExchange downEnv oneSession [("code", ["abc"]), ("state", ["s1"])]).outcome =
        Outcome.wrote 500 [] (errorPage "internal error" "timeout") ∧
      mapGet
          (handleCodeExchange downEnv oneSession
            [("code", ["abc"]), ("state", ["s1"])]).state.stateDB "s1" =
        some { codeChallange := NewS256PKCE "v1", issuer := "https://op.example" } ∧
      (handleCodeExchange downEnv
          (handleCodeExchange downEnv oneSession [("code", ["abc"]), ("state", ["s1"])]).state
          [("code", ["abc"]), ("state", ["s1"])]).calls =
        [Call.CodeExchange "https://op.example" "abc" "https://rp.example/redirect"
          [("code_verifier", ["v1"])]] ∧
      (handleCodeExchange downEnv
          (handleCodeExchange downEnv oneSession [("code", ["abc"]), ("state", ["s1"])]).state
          [("code", ["abc"]), ("state", ["s1"])]).outcome =
        Outcome.wrote 500 [] (errorPage "internal error" "timeout") := by
  refine ⟨by decide, by decide, rfl, rfl, rfl, rfl⟩

/-- C1, amended: on a callback with no `error` parameter whose `state` is a key of `stateDB`,
the entry of that state is removed when the token exchange returns a token response (no
transport error, no OAuth error payload) whose ID token parses as a JWS; every later callback
with that state then gets the state-mismatch page and makes no call on the federation leaf.
When the exchange does not get that far, the entry stays as it was. -/
theorem state_consumed_when_token_parses (env : Env) (st : ServerState) (query : Values)
    (stateInfo : stateData) (hcoh : Coherent st)
    (herr : Values.Get query "error" = "")
    (hfound : mapGet st.stateDB (Values.Get query "state") = some stateInfo) :
    (TokenParses env st query stateInfo →
        mapGet (handleCodeExchange env st query).state.stateDB (Values.Get query "state") = none ∧
        ∀ (env₂ : Env) (query₂ : Values), Values.Get query₂ "error" = "" →
          Values.Get query₂ "state" = Values.Get query "state" →
          (handleCodeExchange env₂ (handleCodeExchange env st query).state query₂).outcome =
              Outcome.wrote 444 [] (errorPage "state mismatch" "") ∧
            (handleCodeExchange env₂ (handleCodeExchange env st query).state query₂).calls = []) ∧
      (¬ TokenParses env st query stateInfo →
        mapGet (handleCodeExchange env st query).state.stateDB (Values.Get query "state") =
          some stateInfo) := by
  have hleaf := hcoh.built st _ _ hfound
  constructor
  · intro hp
    rw [handleCodeExchange_found_consumed env st query stateInfo herr hfound hleaf hp]
    refine ⟨mapGet_mapDelete_self _ _, ?_⟩
    intro env₂ query₂ herr₂ hstate
    rw [handleCodeExchange_after_delete env₂ st query₂ _ herr₂ hstate]
    exact ⟨rfl, rfl⟩
  · intro hp
    rw [handleCodeExchange_found_kept env st query stateInfo herr hfound hleaf hp]
    exact hfound

/-- The stored state `s1` is consumed by a callback whose exchange yields a parsable token. -/
theorem state_consumed_when_token_parses_witness :
    Coherent oneSession ∧
      mapGet (handleCodeExchange okEnv oneSession
        [("code", ["abc"]), ("state", ["s1"])]).state.stateDB "s1" = none :=
  ⟨fun _ => rfl,
    ((state_consumed_when_token_parses okEnv oneSession [("code", ["abc"]), ("state", ["s1"])]
      { codeChallange := NewS256PKCE "v1", issuer := "https://op.example" }
      (fun _ => rfl) (by decide) (by decide)).1
      ⟨{ IDToken := "jws" }, { Payload := [123, 125] }, rfl, rfl, rfl, rfl⟩).1⟩

/-- C2: on a callback with no `error` parameter whose `state` is a key of `stateDB`, the
calls made on the federation leaf are exactly one `CodeExchange`, with the issuer stored under
that state, the `code` of the query, the configured `redirectURI`, and parameters holding the
single key `code_verifier` with the verifier of the stored PKCE pair.  A query that agrees on
`code` and `state` leads to the same call.  After a login for the issuer `op` that did not
end the process, a callback with the state of that login exchanges against `op` with the
verifier drawn in that login. -/
theorem exchange_uses_stored_issuer_and_verifier (env : Env) (st : ServerState) (query : Values)
    (stateInfo : stateData) (hcoh : Coherent st)
    (herr : Values.Get query "error" = "")
    (hfound : mapGet st.stateDB (Values.Get query "state") = some stateInfo) :
    (handleCodeExchange env st query).calls =
        [Call.CodeExchange stateInfo.issuer (Values.Get query "code") st.redirectURI
          [("code_verifier", [stateInfo.codeChallange.Verifier])]] ∧
      (∀ query₂ : Values, Values.Get query₂ "error" = "" →
        Values.Get query₂ "code" = Values.Get query "code" →
        Values.Get query₂ "state" = Values.Get query "state" →
        (handleCodeExchange env st query₂).calls = (handleCodeExchange env st query).calls) ∧
      (∀ (env₀ : Env) (st₀ : ServerState) (loginQuery : Values),
        (∀ err, (handleLogin env₀ st₀ loginQuery).outcome ≠ Outcome.fatal err) →
        Values.Get query "state" = env₀.randASCIIString st₀.randDraws 32 →
        (handleCodeExchange env (handleLogin env₀ st₀ loginQuery).state query).calls =
          [Call.CodeExchange (Values.Get loginQuery "op") (Values.Get query "code")
            st₀.redirectURI
            [("code_verifier", [env₀.randASCIIString (st₀.randDraws + 1) 64])]]) := by
  have hleaf := hcoh.built st _ _ hfound
  refine ⟨handleCodeExchange_found_calls env st query stateInfo herr hfound hleaf, ?_, ?_⟩
  · intro query₂ herr₂ hcode hstate
    rw [handleCodeExchange_found_calls env st query stateInfo herr hfound hleaf,
      handleCodeExchange_found_calls env st query₂ stateInfo herr₂ (hstate ▸ hfound) hleaf, hcode]
  · intro env₀ st₀ loginQuery hnf hstate
    rw [handleLogin_state_of_not_fatal env₀ st₀ loginQuery hnf]
    have hget : mapGet (afterLogin env₀ st₀ loginQuery).stateDB (Values.Get query "state") =
        some { codeChallange := NewS256PKCE (env₀.randASCIIString (st₀.randDraws + 1) 64)
               issuer := Values.Get loginQuery "op" } := by
      rw [hstate]
      exact mapGet_mapSet_self _ _ _
    rw [handleCodeExchange_found_calls env _ query _ herr hget rfl]
    rfl

/-- The callback for the stored state `s1` exchanges against the stored issuer. -/
theorem exchange_uses_stored_issuer_and_verifier_witness :
    mapGet oneSession.stateDB (Values.Get [("code", ["abc"]), ("state", ["s1"])] "state") =
        some { codeChallange := NewS256PKCE "v1", issuer := "https://op.example" } ∧
      (handleCodeExchange okEnv oneSession [("code", ["abc"]), ("state", ["s1"])]).calls =
        [Call.CodeExchange "https://op.example" "abc" "https://rp.example/redirect"
          [("code_verifier", ["v1"])]] :=
  ⟨by decide,
    (exchange_uses_stored_issuer_and_verifier okEnv oneSession
      [("code", ["abc"]), ("state", ["s1"])]
      { codeChallange := NewS256PKCE "v1", issuer := "https://op.example" }
      (fun _ => rfl) (by decide) (by decide)).1⟩

/-- C5: on a callback with no `error` parameter whose `state` is a key of `stateDB`, if the
token exchange returns a token response with no error and no OAuth error payload, its ID token
parses as a JWS, and the payload decodes to an object whose claims `sub` and `iss` are the
strings `s` and `i`, then the answer is status 200 with the body `userHtml` formatted with `s`
and `i`; the entry of `state` is gone from `stateDB` while every other key reads as before;
and the same callback, sent again, gets the 444 state-mismatch page with no call on the
federation leaf. -/
theorem callback_success (env : Env) (st : ServerState) (query : Values)
    (stateInfo : stateData) (tokenRes : TokenResponse) (msg : JWSMessage)
    (msgData : GoMap GoAny) (s i : String) (hcoh : Coherent st)
    (herr : Values.Get query "error" = "")
    (hfound : mapGet st.stateDB (Values.Get query "state") = some stateInfo)
    (hres : env.CodeExchange stateInfo.issuer (Values.Get query "code") st.redirectURI
      [("code_verifier", [stateInfo.codeChallange.Verifier])] =
      { tokenRes := some tokenRes, errRes := none, err := none })
    (hparse : env.ParseString tokenRes.IDToken = .ok msg)
    (hjson : env.Unmarshal msg.Payload = .ok msgData)
    (hsub : mapGet msgData "sub" = some (GoAny.string s))
    (hiss : mapGet msgData "iss" = some (GoAny.string i)) :
    (handleCodeExchange env st query).outcome = Outcome.wrote 200 [] (userHtml s i) ∧
      mapGet (handleCodeExchange env st query).state.stateDB (Values.Get query "state") = none ∧
      (∀ k, k ≠ Values.Get query "state" →
        mapGet (handleCodeExchange env st query).state.stateDB k = mapGet st.stateDB k) ∧
      (handleCodeExchange env st query).state.stateDB =
        mapDelete st.stateDB (Values.Get query "state") ∧
      (∀ env₂ : Env,
        (handleCodeExchange env₂ (handleCodeExchange env st query).state query).outcome =
            Outcome.wrote 444 [] (errorPage "state mismatch" "") ∧
          (handleCodeExchange env₂ (handleCodeExchange env st query).state query).calls = []) := by
  have hleaf := hcoh.built st _ _ hfound
  have h1 : (exchangeOf env st query stateInfo).err = none := by simp [exchangeOf, hres]
  have h2 : (exchangeOf env st query stateInfo).errRes = none := by simp [exchangeOf, hres]
  have h3 : (exchangeOf env st query stateInfo).tokenRes = some tokenRes := by
    simp [exchangeOf, hres]
  have hp : TokenParses env st query stateInfo := ⟨tokenRes, msg, h1, h2, h3, hparse⟩
  refine ⟨?_, ?_, ?_, ?_, ?_⟩
  · rw [handleCodeExchange_found_decoded env st query stateInfo herr hfound hleaf tokenRes msg
      msgData h1 h2 h3 hparse hjson, hsub, hiss]
    rfl
  · rw [handleCodeExchange_found_consumed env st query stateInfo herr hfound hleaf hp]
    exact mapGet_mapDelete_self _ _
  · intro k hk
    rw [handleCodeExchange_found_consumed env st query stateInfo herr hfound hleaf hp]
    exact mapGet_mapDelete_of_ne _ _ _ hk
  · rw [handleCodeExchange_found_consumed env st query stateInfo herr hfound hleaf hp]
  · intro env₂
    rw [handleCodeExchange_found_consumed env st query stateInfo herr hfound hleaf hp,
      handleCodeExchange_after_delete env₂ st query _ herr rfl]
    exact ⟨rfl, rfl⟩

/-- The callback `code=abc&state=s1` with the claims `sub = u1`, `iss = https://op.example`. -/
theorem callback_success_witness :
    Coherent oneSession ∧
      (handleCodeExchange okEnv oneSession [("code", ["abc"]), ("state", ["s1"])]).outcome =
        Outcome.wrote 200 [] (userHtml "u1" "https://op.example") :=
  ⟨fun _ => rfl,
    (callback_success okEnv oneSession [("code", ["abc"]), ("state", ["s1"])]
      { codeChallange := NewS256PKCE "v1", issuer := "https://op.example" }
      { IDToken := "jws" } { Payload := [123, 125] }
      [("sub", GoAny.string "u1"), ("iss", GoAny.string "https://op.example")]
      "u1" "https://op.example" (fun _ => rfl) (by decide) (by decide) rfl rfl rfl rfl rfl).1⟩

/-- C10: in a state of the serving process, `handleCodeExchange` changes `stateDB` exactly
when `error` is empty, `state` is a key of `stateDB`, the token exchange returns neither a
transport error nor an OAuth error payload but a token response, and its ID token parses as
a JWS.  Then `stateDB` loses exactly the entry of `state`, also when decoding the payload
fails and status 500 is written.  In the other cases on a stored state (exchange error: 500,
OAuth error payload: 444 with the returned code and description, unparsable ID token: 500)
`stateDB` is left as it was and the state still reads its entry. -/
theorem stateDB_changes_iff_token_parses (env : Env) (st : ServerState) (query : Values)
    (hcoh : Coherent st) :
    ((handleCodeExchange env st query).state.stateDB ≠ st.stateDB ↔
        Values.Get query "error" = "" ∧
        ∃ stateInfo tokenRes msg,
          mapGet st.stateDB (Values.Get query "state") = some stateInfo ∧
          (exchangeOf env st query stateInfo).err = none ∧
          (exchangeOf env st query stateInfo).errRes = none ∧
          (exchangeOf env st query stateInfo).tokenRes = some tokenRes ∧
          env.ParseString tokenRes.IDToken = .ok msg) ∧
      (∀ stateInfo, Values.Get query "error" = "" →
        mapGet st.stateDB (Values.Get query "state") = some stateInfo →
        (∀ tokenRes msg,
          (exchangeOf env st query stateInfo).err = none →
          (exchangeOf env st query stateInfo).errRes = none →
          (exchangeOf env st query stateInfo).tokenRes = some tokenRes →
          env.ParseString tokenRes.IDToken = .ok msg →
          (handleCodeExchange env st query).state.stateDB =
              mapDelete st.stateDB (Values.Get query "state") ∧
            mapGet (handleCodeExchange env st query).state.stateDB (Values.Get query "state") =
              none ∧
            (∀ k, k ≠ Values.Get query "state" →
              mapGet (handleCodeExchange env st query).state.stateDB k = mapGet st.stateDB k) ∧
            (∀ err, env.Unmarshal msg.Payload = .error err →
              (handleCodeExchange env st query).outcome =
                Outcome.wrote 500 [] (errorPage "internal error" err))) ∧
        (∀ err, (exchangeOf env st query stateInfo).err = some err →
          (handleCodeExchange env st query).outcome =
              Outcome.wrote 500 [] (errorPage "internal error" err) ∧
            (handleCodeExchange env st query).state.stateDB = st.stateDB ∧
            mapGet (handleCodeExchange env st query).state.stateDB (Values.Get query "state") =
              some stateInfo) ∧
        (∀ errRes, (exchangeOf env st query stateInfo).err = none →
          (exchangeOf env st query stateInfo).errRes = some errRes →
          (handleCodeExchange env st query).outcome =
              Outcome.wrote 444 [] (errorPage errRes.Error errRes.ErrorDescription) ∧
            (handleCodeExchange env st query).state.stateDB = st.stateDB ∧
            mapGet (handleCodeExchange env st query).state.stateDB (Values.Get query "state") =
              some stateInfo) ∧
        (∀ tokenRes err, (exchangeOf env st query stateInfo).err = none →
          (exchangeOf env st query stateInfo).errRes = none →
          (exchangeOf env st query stateInfo).tokenRes = some tokenRes →
          env.ParseString tokenRes.IDToken = .error err →
          (handleCodeExchange env st query).outcome =
              Outcome.wrote 500 [] (errorPage "internal error" err) ∧
            (handleCodeExchange env st query).state.stateDB = st.stateDB ∧
            mapGet (handleCodeExchange env st query).state.stateDB (Values.Get query "state") =
              some stateInfo)) := by
  constructor
  · by_cases herr : Values.Get query "error" = ""
    · cases hfound : mapGet st.stateDB (Values.Get query "state") with
      | none =>
        rw [handleCodeExchange_mismatch env st query herr hfound]
        simp
      | some stateInfo =>
        have hleaf := hcoh.built st _ _ hfound
        by_cases hp : TokenParses env st query stateInfo
        · rw [handleCodeExchange_found_consumed env st query stateInfo herr hfound hleaf hp]
          obtain ⟨tokenRes, msg, h1, h2, h3, h4⟩ := hp
          constructor
          · intro _
            exact ⟨herr, stateInfo, tokenRes, msg, rfl, h1, h2, h3, h4⟩
          · intro _
            exact mapDelete_ne_of_mapGet _ _ _ hfound
        · rw [handleCodeExchange_found_kept env st query stateInfo herr hfound hleaf hp]
          constructor
          · intro h
            exact absurd rfl h
          · rintro ⟨_, info, tokenRes, msg, hinfo, h1, h2, h3, h4⟩
            cases hinfo
            exact absurd ⟨tokenRes, msg, h1, h2, h3, h4⟩ hp
    · have hst : (handleCodeExchange env st query).state = st := by
        simp [handleCodeExchange, herr]
      rw [hst]
      constructor
      · intro h
        exact absurd rfl h
      · rintro ⟨h, _⟩
        exact absurd h herr
  · intro stateInfo herr hfound
    have hleaf := hcoh.built st _ _ hfound
    refine ⟨?_, ?_, ?_, ?_⟩
    · intro tokenRes msg h1 h2 h3 h4
      have hp : TokenParses env st query stateInfo := ⟨tokenRes, msg, h1, h2, h3, h4⟩
      rw [handleCodeExchange_found_consumed env st query stateInfo herr hfound hleaf hp]
      refine ⟨rfl, mapGet_mapDelete_self _ _, fun k hk => mapGet_mapDelete_of_ne _ _ _ hk, ?_⟩
      intro err h5
      exact handleCodeExchange_found_undecodable env st query stateInfo herr hfound hleaf
        tokenRes msg err h1 h2 h3 h4 h5
    · intro err h1
      have hp : ¬ TokenParses env st query stateInfo := by
        rintro ⟨_, _, h, _⟩
        rw [h1] at h
        cases h
      rw [handleCodeExchange_found_kept env st query stateInfo herr hfound hleaf hp]
      exact ⟨handleCodeExchange_found_err env st query stateInfo herr hfound hleaf err h1,
        rfl, hfound⟩
    · intro errRes h1 h2
      have hp : ¬ TokenParses env st query stateInfo := by
        rintro ⟨_, _, _, h, _⟩
        rw [h2] at h
        cases h
      rw [handleCodeExchange_found_kept env st query stateInfo herr hfound hleaf hp]
      exact ⟨handleCodeExchange_found_errRes env st query stateInfo herr hfound hleaf errRes
        h1 h2, rfl, hfound⟩
    · intro tokenRes err h1 h2 h3 h4
      have hp : ¬ TokenParses env st query stateInfo := by
        rintro ⟨t, m, _, _, h, h'⟩
        rw [h3] at h
        cases h
        rw [h4] at h'
        cases h'
      rw [handleCodeExchange_found_kept env st query stateInfo herr hfound hleaf hp]
      exact ⟨handleCodeExchange_found_unparsable env st query stateInfo herr hfound hleaf
        tokenRes err h1 h2 h3 h4, rfl, hfound⟩

/-- The callback for the stored state `s1` whose exchange yields a parsable token changes
`stateDB`. -/
theorem stateDB_changes_iff_token_parses_witness :
    Coherent oneSession ∧
      (handleCodeExchange okEnv oneSession [("code", ["abc"]), ("state", ["s1"])]).state.stateDB ≠
        oneSession.stateDB :=
  ⟨fun _ => rfl,
    (stateDB_changes_iff_token_parses okEnv oneSession [("code", ["abc"]), ("state", ["s1"])]
      (fun _ => rfl)).1.2
      ⟨by decide, { codeChallange := NewS256PKCE "v1", issuer := "https://op.example" },
        { IDToken := "jws" }, { Payload := [123, 125] }, by decide, rfl, rfl, rfl, rfl⟩⟩

/-! ## Login -/

/-- C6: for every issuer value `op` and every `stateDB`, when the challenge of the new pair is
computed, the federation leaf is there (built before, or buildable now) and its
authorization-URL builder returns a URL, `handleLogin` draws a state token with requested
length 32, makes the PKCE pair from a verifier drawn with requested length 64, and draws a
nonce with requested length 32 in a third draw; it stores under the state token the entry with
issuer `op` and that pair, every other key of `stateDB` reading as before; its one call on the
leaf is the builder with `op`, `redirectURI`, the state, the scope `openid` and parameters
with exactly the keys `nonce`, `code_challenge` (the challenge of the pair),
`code_challenge_method` (`S256`) and `prompt` (`consent`), so with no key for the verifier;
and it answers with a 303 redirect to the URL the builder returned. -/
theorem login_initiation (env : Env) (st : ServerState) (query : Values)
    (challenge authURL : String)
    (hchal : env.Challenge (NewS256PKCE (env.randASCIIString (st.randDraws + 1) 64)) =
      .ok challenge)
    (hleaf : st._fedLeaf = true ∨ env.NewFederationLeaf = none)
    (hurl : env.GetAuthorizationURL (Values.Get query "op") st.redirectURI
      (env.randASCIIString st.randDraws 32) "openid"
      [("nonce", [env.randASCIIString (st.randDraws + 2) 32]), ("code_challenge", [challenge]),
        ("code_challenge_method", ["S256"]), ("prompt", ["consent"])] = .ok authURL) :
    (handleLogin env st query).outcome = Outcome.redirect authURL 303 ∧
      (handleLogin env st query).calls =
        [Call.GetAuthorizationURL (Values.Get query "op") st.redirectURI
          (env.randASCIIString st.randDraws 32) "openid"
          [("nonce", [env.randASCIIString (st.randDraws + 2) 32]),
            ("code_challenge", [challenge]),
            ("code_challenge_method", ["S256"]), ("prompt", ["consent"])]] ∧
      mapKeys (loginParams (env.randASCIIString (st.randDraws + 2) 32) challenge) =
        ["nonce", "code_challenge", "code_challenge_method", "prompt"] ∧
      mapGet (loginParams (env.randASCIIString (st.randDraws + 2) 32) challenge)
        "code_verifier" = none ∧
      (handleLogin env st query).state.stateDB =
        mapSet st.stateDB (env.randASCIIString st.randDraws 32)
          { codeChallange := NewS256PKCE (env.randASCIIString (st.randDraws + 1) 64)
            issuer := Values.Get query "op" } ∧
      mapGet (handleLogin env st query).state.stateDB (env.randASCIIString st.randDraws 32) =
        some { codeChallange := NewS256PKCE (env.randASCIIString (st.randDraws + 1) 64)
               issuer := Values.Get query "op" } ∧
      (∀ k, k ≠ env.randASCIIString st.randDraws 32 →
        mapGet (handleLogin env st query).state.stateDB k = mapGet st.stateDB k) := by
  rw [handleLogin_ok env st query challenge authURL hchal hleaf hurl]
  refine ⟨rfl, rfl, rfl, ?_, rfl, ?_, ?_⟩
  · simp [loginParams, mapGet]
  · exact mapGet_mapSet_self _ _ _
  · intro k hk
    exact mapGet_mapSet_of_ne _ _ _ _ hk

/-- The login `op=https://op.example` on a fresh server. -/
theorem login_initiation_witness :
    (handleLogin okEnv (initServer twoAnchors 0) [("op", ["https://op.example"])]).outcome =
        Outcome.redirect "https://op.example/authorize?state=r0n32" 303 ∧
      mapGet (handleLogin okEnv (initServer twoAnchors 0)
          [("op", ["https://op.example"])]).state.stateDB "r0n32" =
        some { codeChallange := NewS256PKCE "r1n64", issuer := "https://op.example" } :=
  ⟨(login_initiation okEnv (initServer twoAnchors 0) [("op", ["https://op.example"])]
      "cr1n64" "https://op.example/authorize?state=r0n32" rfl (Or.inr rfl) rfl).1,
    by decide⟩

/-- C7, on the code: when the authorization-URL builder of the federation leaf returns an
error, and likewise when the PKCE challenge cannot be computed, `handleLogin` writes no
response for the request but ends the serving process (`log.Fatal`); the session entry has
been stored by then. -/
theorem login_failure_ends_process :
    (handleLogin noURLEnv (initServer twoAnchors 0) [("op", ["https://nowhere.example"])]).outcome =
        Outcome.fatal "unknown issuer" ∧
      (handleLogin noURLEnv (initServer twoAnchors 0) [("op", ["https://nowhere.example"])]).calls =
        [Call.GetAuthorizationURL "https://nowhere.example" "https://rp.example/redirect" "r0n32"
          "openid"
          [("nonce", ["r2n32"]), ("code_challenge", ["cr1n64"]),
            ("code_challenge_method", ["S256"]), ("prompt", ["consent"])]] ∧
      (handleLogin noChallengeEnv (initServer twoAnchors 0)
          [("op", ["https://op.example"])]).outcome =
        Outcome.fatal "unknown transformation" ∧
      (handleLogin noChallengeEnv (initServer twoAnchors 0)
          [("op", ["https://op.example"])]).calls = [] := by
  decide

/-! ## The directory of candidates -/

theorem mapKeys_mapSet {V : Type} (m : GoMap V) (k : String) (v : V) :
    mapKeys (mapSet m k v) = if k ∈ mapKeys m then mapKeys m else mapKeys m ++ [k] := by
  induction m with
  | nil => simp [mapSet, mapKeys]
  | cons p rest ih =>
    obtain ⟨k', v'⟩ := p
    by_cases h : k' = k
    · subst h
      simp [mapSet, mapKeys]
    · have hk : ¬ k = k' := fun e => h e.symm
      simp only [mapKeys] at ih
      simp only [mapSet, h, if_false, mapKeys, List.map_cons, List.mem_cons, hk, false_or, ih]
      split <;> simp

theorem mem_mapKeys_mapSet {V : Type} (m : GoMap V) (k k₀ : String) (v : V) :
    k₀ ∈ mapKeys (mapSet m k v) ↔ k₀ = k ∨ k₀ ∈ mapKeys m := by
  rw [mapKeys_mapSet]
  split
  · constructor
    · exact Or.inr
    · rintro (h | h)
      · subst h
        assumption
      · exact h
  · simp [or_comm]

theorem nodup_mapKeys_mapSet {V : Type} (m : GoMap V) (k : String) (v : V)
    (h : (mapKeys m).Nodup) : (mapKeys (mapSet m k v)).Nodup := by
  rw [mapKeys_mapSet]
  split
  · exact h
  · rename_i hk
    exact List.Nodup.append h (List.nodup_singleton k) (by simpa using hk)

theorem mem_mapSet {V : Type} (m : GoMap V) (k : String) (v : V) (p : String × V)
    (h : p ∈ mapSet m k v) : p = (k, v) ∨ p ∈ m := by
  induction m with
  | nil => simpa [mapSet] using h
  | cons q rest ih =>
    obtain ⟨k', v'⟩ := q
    by_cases hk : k' = k
    · simp only [mapSet, hk, if_true, List.mem_cons] at h
      rcases h with h | h
      · exact Or.inl h
      · exact Or.inr (List.mem_cons_of_mem _ h)
    · simp only [mapSet, hk, if_false, List.mem_cons] at h
      rcases h with h | h
      · exact Or.inr (by simp [h])
      · rcases ih h with h | h
        · exact Or.inl h
        · exact Or.inr (List.mem_cons_of_mem _ h)

theorem storeOps_concat (m : GoMap CollectedEntity) (l : List CollectedEntity)
    (e : CollectedEntity) : storeOps m (l ++ [e]) = mapSet (storeOps m l) e.EntityID e := by
  simp [storeOps, List.foldl_append]

theorem storeOps_append (m : GoMap CollectedEntity) (l₁ l₂ : List CollectedEntity) :
    storeOps m (l₁ ++ l₂) = storeOps (storeOps m l₁) l₂ := by
  simp [storeOps, List.foldl_append]

theorem mapGet_storeOps (m : GoMap CollectedEntity) (l : List CollectedEntity) (id : String) :
    mapGet (storeOps m l) id =
      (l.reverse.find? (fun e => decide (e.EntityID = id))).or (mapGet m id) := by
  induction l using List.reverseRecOn with
  | nil => simp [storeOps]
  | append_singleton l e ih =>
    rw [storeOps_concat, List.reverse_append, List.reverse_singleton, List.singleton_append,
      List.find?_cons]
    by_cases h : e.EntityID = id
    · subst h
      simp [mapGet_mapSet_self]
    · have hne : id ≠ e.EntityID := fun x => h x.symm
      rw [mapGet_mapSet_of_ne _ _ _ _ hne, ih]
      simp [h]

theorem mem_mapKeys_storeOps (m : GoMap CollectedEntity) (l : List CollectedEntity)
    (id : String) :
    id ∈ mapKeys (storeOps m l) ↔ id ∈ mapKeys m ∨ ∃ e ∈ l, e.EntityID = id := by
  induction l using List.reverseRecOn with
  | nil => simp [storeOps]
  | append_singleton l e ih =>
    rw [storeOps_concat, mem_mapKeys_mapSet, ih]
    constructor
    · rintro (h | h | ⟨x, hx, hxe⟩)
      · exact Or.inr ⟨e, by simp, h.symm⟩
      · exact Or.inl h
      · exact Or.inr ⟨x, by simp [hx], hxe⟩
    · rintro (h | ⟨x, hx, hxe⟩)
      · exact Or.inr (Or.inl h)
      · rcases List.mem_append.1 hx with hx | hx
        · exact Or.inr (Or.inr ⟨x, hx, hxe⟩)
        · simp only [List.mem_singleton] at hx
          subst hx
          exact Or.inl hxe.symm

theorem nodup_mapKeys_storeOps (m : GoMap CollectedEntity) (l : List CollectedEntity)
    (h : (mapKeys m).Nodup) : (mapKeys (storeOps m l)).Nodup := by
  induction l using List.reverseRecOn with
  | nil => simpa [storeOps] using h
  | append_singleton l e ih =>
    rw [storeOps_concat]
    exact nodup_mapKeys_mapSet _ _ _ ih

theorem keyed_storeOps (m : GoMap CollectedEntity) (l : List CollectedEntity)
    (h : ∀ p ∈ m, p.2.EntityID = p.1) : ∀ p ∈ storeOps m l, p.2.EntityID = p.1 := by
  induction l using List.reverseRecOn with
  | nil => simpa [storeOps] using h
  | append_singleton l e ih =>
    rw [storeOps_concat]
    intro p hp
    rcases mem_mapSet _ _ _ _ hp with hp | hp
    · subst hp
      rfl
    · exact ih p hp

theorem collectLoop_eq (env : Env) (conf : Config) (tas : List String) (i : Nat)
    (m : GoMap CollectedEntity) :
    collectLoop env conf tas i m = storeOps m (returnedFrom env conf tas i) := by
  induction tas generalizing i m with
  | nil => simp [collectLoop, returnedFrom, storeOps]
  | cons ta rest ih => rw [collectLoop, returnedFrom, storeOps_append, ih]

theorem allOPs_eq (env : Env) (conf : Config) :
    allOPs env conf = storeOps [] (returnedOps env conf) :=
  collectLoop_eq env conf conf.TrustAnchors 0 []

theorem renderOptions_eq (visited : GoMap CollectedEntity) :
    renderOptions visited = String.join (visited.map (fun p => opOption p.2)) := by
  simp [renderOptions, String.join, List.foldl_map]

/-- C8: for every list of trust anchors and every family of lists the collector returns, the
map `allOPs` built by `handleHome` has as keys exactly the entity IDs that occur in a returned
list, without repetition; each key reads the last entity with that ID in anchor-then-list
order; and, whatever order the `range` over the map takes, the `<option>` elements appended
to the picker are one per distinct entity ID, also when several anchors return the same
entity. -/
theorem directory_deduplicates (env : Env) (conf : Config) (st : ServerState)
    (horder : ∀ m, List.Perm (env.rangeOrder m) m) :
    (∀ id, id ∈ mapKeys (allOPs env conf) ↔ ∃ e ∈ returnedOps env conf, e.EntityID = id) ∧
      (mapKeys (allOPs env conf)).Nodup ∧
      (∀ id, mapGet (allOPs env conf) id =
        (returnedOps env conf).reverse.find? (fun e => decide (e.EntityID = id))) ∧
      (handleHome env conf st).outcome =
        Outcome.wrote 200 []
          (loginHtml conf.ClientName (homeImg conf)
            (String.join ((env.rangeOrder (allOPs env conf)).map (fun p => opOption p.2)))) ∧
      List.Perm ((env.rangeOrder (allOPs env conf)).map (fun p => p.2.EntityID))
        ((returnedOps env conf).map (fun e => e.EntityID)).dedup := by
  have hkeys : ∀ id, id ∈ mapKeys (allOPs env conf) ↔
      ∃ e ∈ returnedOps env conf, e.EntityID = id := by
    intro id
    rw [allOPs_eq, mem_mapKeys_storeOps]
    simp [mapKeys]
  have hnodup : (mapKeys (allOPs env conf)).Nodup := by
    rw [allOPs_eq]
    exact nodup_mapKeys_storeOps _ _ (by simp [mapKeys])
  refine ⟨hkeys, hnodup, ?_, ?_, ?_⟩
  · intro id
    rw [allOPs_eq, mapGet_storeOps]
    simp [mapGet]
  · simp [handleHome, renderOptions_eq]
  · have hkeyed : ∀ p ∈ allOPs env conf, p.2.EntityID = p.1 := by
      rw [allOPs_eq]
      exact keyed_storeOps _ _ (by simp)
    have hmap : (env.rangeOrder (allOPs env conf)).map (fun p => p.2.EntityID) =
        (env.rangeOrder (allOPs env conf)).map Prod.fst := by
      apply List.map_congr_left
      intro p hp
      exact hkeyed p ((horder _).mem_iff.1 hp)
    rw [hmap]
    refine List.Perm.trans (List.Perm.map Prod.fst (horder _)) ?_
    refine (List.perm_ext_iff_of_nodup hnodup (List.nodup_dedup _)).2 ?_
    intro id
    rw [List.mem_dedup, hkeys id]
    simp

/-- Two trust anchors that both return `https://op.example`: one entry, the later one. -/
theorem directory_deduplicates_witness :
    (∀ m, List.Perm (okEnv.rangeOrder m) m) ∧
      (mapKeys (allOPs okEnv twoAnchors)).Nodup ∧
      allOPs okEnv twoAnchors =
        [("https://op.example",
            { EntityID := "https://op.example", DisplayNames := [("federation_entity", "Fed one")] }),
          ("https://op2.example", { EntityID := "https://op2.example", DisplayNames := [] })] :=
  ⟨fun m => List.Perm.refl m,
    (directory_deduplicates okEnv twoAnchors oneSession (fun m => List.Perm.refl m)).2.1,
    by decide⟩

/-- C9, as stated, fails in its last clause: an OP whose declared name is spelled like its
entity ID is labelled with the entity ID although a declared name is not empty. -/
theorem label_equals_entity_id_with_declared_name :
    opLabel { EntityID := "https://op.example"
              DisplayNames := [("openid_provider", "https://op.example")] } =
        "https://op.example" ∧
      displayName { EntityID := "https://op.example"
                    DisplayNames := [("openid_provider", "https://op.example")] }
        "openid_provider" ≠ "" := by
  decide

/-- C9, amended: the `<option>` element of a candidate has the entity ID as its value, and its
label is the first non-empty of the OP's declared name (`DisplayNames["openid_provider"]`),
the federation entity's declared name (`DisplayNames["federation_entity"]`) and the entity
ID, an absent name reading as the empty string; so the label is the entity ID when both
declared names are empty or absent, and a label that differs from the entity ID is a declared
name. -/
theorem option_value_and_label (op : CollectedEntity) :
    opOption op = "<option value=\"" ++ op.EntityID ++ "\">" ++ opLabel op ++ "</option>" ∧
      (∀ key, mapGet op.DisplayNames key = none → displayName op key = "") ∧
      (displayName op "openid_provider" ≠ "" →
        opLabel op = displayName op "openid_provider") ∧
      (displayName op "openid_provider" = "" → displayName op "federation_entity" ≠ "" →
        opLabel op = displayName op "federation_entity") ∧
      (displayName op "openid_provider" = "" → displayName op "federation_entity" = "" →
        opLabel op = op.EntityID) ∧
      (opLabel op ≠ op.EntityID →
        (displayName op "openid_provider" ≠ "" ∧
          opLabel op = displayName op "openid_provider") ∨
        (displayName op "openid_provider" = "" ∧ displayName op "federation_entity" ≠ "" ∧
          opLabel op = displayName op "federation_entity")) := by
  refine ⟨rfl, ?_, ?_, ?_, ?_, ?_⟩
  · intro key h
    simp [displayName, h]
  · intro h
    simp [opLabel, FirstNonEmpty, h]
  · intro h1 h2
    simp [opLabel, FirstNonEmpty, h1, h2]
  · intro h1 h2
    simp only [opLabel, FirstNonEmpty, h1, h2]
    split <;> simp_all
  · intro hne
    by_cases h1 : displayName op "openid_provider" = ""
    · by_cases h2 : displayName op "federation_entity" = ""
      · exfalso
        apply hne
        simp only [opLabel, FirstNonEmpty, h1, h2]
        split <;> simp_all
      · exact Or.inr ⟨h1, h2, by simp [opLabel, FirstNonEmpty, h1, h2]⟩
    · exact Or.inl ⟨h1, by simp [opLabel, FirstNonEmpty, h1]⟩

end RP
